import Mathlib

/-!
Verification development for the zen_food_tracker application (src/app.py),
a session-based canteen tracker written with Flask.  The four in-memory
tables (users, menu_items, sales, purchases), the auto-incrementing id
counters and every request handler are embedded shallowly below.  Numeric
prices are modelled as rationals (the source uses Python floats; no claim
here depends on rounding), timestamps as integers (abstract instants,
86400 units per calendar day), and Python dicts as insertion-ordered
association lists, matching dict iteration order.
-/

namespace ZenFood

/-! ### Decimal rendering of numeric ids

The source produces user and menu-item ids with str(next_id).  The
embedding uses Nat.repr, whose digit list is produced by the fuel-based
Nat.toDigitsCore; the lemmas here establish the clean recurrence, a
decoding round trip, and injectivity of the rendering. -/

/-- Decimal value of a list of digit characters, most significant first. -/
def decDigits (cs : List Char) : ℕ :=
  cs.foldl (fun a c => a * 10 + (c.toNat - 48)) 0

theorem decDigits_snoc (xs : List Char) (c : Char) :
    decDigits (xs ++ [c]) = decDigits xs * 10 + (c.toNat - 48) := by
  simp [decDigits]

theorem toDigitsCore_acc (fuel : ℕ) : ∀ (n : ℕ) (ds : List Char),
    Nat.toDigitsCore 10 fuel n ds = Nat.toDigitsCore 10 fuel n [] ++ ds := by
  induction fuel with
  | zero => intro n ds; simp [Nat.toDigitsCore]
  | succ f ih =>
    intro n ds
    simp only [Nat.toDigitsCore]
    by_cases h : n / 10 = 0
    · simp [h]
    · simp only [h, if_false]
      rw [ih (n / 10) (Nat.digitChar (n % 10) :: ds),
        ih (n / 10) [Nat.digitChar (n % 10)]]
      simp

theorem toDigitsCore_succ (f n : ℕ) :
    Nat.toDigitsCore 10 (f + 1) n [] =
      (if n / 10 = 0 then [] else Nat.toDigitsCore 10 f (n / 10) []) ++
        [Nat.digitChar (n % 10)] := by
  simp only [Nat.toDigitsCore]
  by_cases h : n / 10 = 0
  · simp [h]
  · simp only [h, if_false]
    rw [toDigitsCore_acc f (n / 10) [Nat.digitChar (n % 10)]]

theorem toDigitsCore_fuel : ∀ (n f g : ℕ), n < f → n < g →
    Nat.toDigitsCore 10 f n [] = Nat.toDigitsCore 10 g n [] := by
  intro n
  induction n using Nat.strong_induction_on with
  | _ n ih =>
    intro f g hf hg
    cases f with
    | zero => omega
    | succ f =>
      cases g with
      | zero => omega
      | succ g =>
        rw [toDigitsCore_succ f n, toDigitsCore_succ g n]
        by_cases h : n / 10 = 0
        · simp [h]
        · have hn : n ≠ 0 := by intro e; subst e; simp at h
          have hlt : n / 10 < n := Nat.div_lt_self (by omega) (by omega)
          rw [if_neg h, if_neg h, ih (n / 10) hlt f g (by omega) (by omega)]

theorem toDigits_eq (n : ℕ) :
    Nat.toDigits 10 n =
      (if n < 10 then [] else Nat.toDigits 10 (n / 10)) ++
        [Nat.digitChar (n % 10)] := by
  have h10 : n < 10 ↔ n / 10 = 0 := by omega
  by_cases h : n < 10
  · have h0 : n / 10 = 0 := h10.mp h
    simp only [Nat.toDigits]
    rw [toDigitsCore_succ n n, if_pos h0, if_pos h]
  · have h0 : n / 10 ≠ 0 := fun e => h (h10.mpr e)
    have hn : n ≠ 0 := by omega
    have hlt : n / 10 < n := Nat.div_lt_self (by omega) (by omega)
    simp only [Nat.toDigits]
    rw [toDigitsCore_succ n n, if_neg h0, if_neg h,
      toDigitsCore_fuel (n / 10) n (n / 10 + 1) hlt (by omega)]

theorem digitChar_toNat : ∀ d : ℕ, d < 10 → (Nat.digitChar d).toNat = 48 + d := by
  decide

theorem decDigits_toDigits (n : ℕ) : decDigits (Nat.toDigits 10 n) = n := by
  induction n using Nat.strong_induction_on with
  | _ n ih =>
    rw [toDigits_eq n]
    by_cases h : n < 10
    · have hmod : n % 10 = n := Nat.mod_eq_of_lt h
      have hone : decDigits [Nat.digitChar (n % 10)] =
          (Nat.digitChar (n % 10)).toNat - 48 := by
        simp [decDigits]
      rw [if_pos h, List.nil_append, hone,
        digitChar_toNat (n % 10) (Nat.mod_lt _ (by omega))]
      omega
    · have hn : n ≠ 0 := by omega
      have hlt : n / 10 < n := Nat.div_lt_self (by omega) (by omega)
      rw [if_neg h, decDigits_snoc, ih (n / 10) hlt,
        digitChar_toNat (n % 10) (Nat.mod_lt _ (by omega))]
      omega

theorem natRepr_injective : Function.Injective Nat.repr := by
  intro m n h
  have h2 : Nat.toDigits 10 m = Nat.toDigits 10 n := by
    have := congrArg String.data h
    simpa [Nat.repr, List.asString] using this
  have h3 := congrArg decDigits h2
  rwa [decDigits_toDigits, decDigits_toDigits] at h3

theorem natRepr_ne_empty (n : ℕ) : Nat.repr n ≠ "" := by
  intro h
  have h2 : Nat.toDigits 10 n = [] := by
    have := congrArg String.data h
    simpa [Nat.repr, List.asString] using this
  rw [toDigits_eq] at h2
  simp at h2

/-! ### Python string primitives

The handlers use str.strip, str.lower, int(...) and float(...).  The
models below cover the ASCII core of those operations; exotic literal
forms (unicode case folding, digit-group underscores, exponents, inf and
nan literals) do not occur in the claims and are outside the model. -/

/-- Model of Python str.strip with no arguments: remove leading and
trailing whitespace. -/
def pyStrip (s : String) : String :=
  ⟨((s.data.dropWhile Char.isWhitespace).reverse.dropWhile
      Char.isWhitespace).reverse⟩

/-- ASCII lowering of one character, as str.lower does on ASCII input. -/
def lowerChar (c : Char) : Char :=
  if 65 ≤ c.toNat ∧ c.toNat ≤ 90 then Char.ofNat (c.toNat + 32) else c

/-- Model of Python str.lower. -/
def pyLower (s : String) : String :=
  ⟨s.data.map lowerChar⟩

/-- Model of Python int(s): strip whitespace, then an optional sign
followed by one or more decimal digits. -/
def pyParseInt (s : String) : Option Int :=
  match (pyStrip s).data with
  | '-' :: rest =>
    if rest ≠ [] ∧ rest.all Char.isDigit then some (-(decDigits rest : Int))
    else none
  | '+' :: rest =>
    if rest ≠ [] ∧ rest.all Char.isDigit then some (decDigits rest : Int)
    else none
  | rest =>
    if rest ≠ [] ∧ rest.all Char.isDigit then some (decDigits rest : Int)
    else none

/-- Value of an integer part and a fraction part, as a rational. -/
def decimalVal (ip fp : List Char) : ℚ :=
  (decDigits ip : ℚ) + (decDigits fp : ℚ) / 10 ^ fp.length

/-- Model of Python float(s) on plain decimal literals: strip whitespace,
optional sign, digits with at most one decimal point and at least one
digit overall. -/
def pyParseFloat (s : String) : Option ℚ :=
  let body := (pyStrip s).data
  let signed : ℚ × List Char :=
    match body with
    | '-' :: rest => (-1, rest)
    | '+' :: rest => (1, rest)
    | rest => (1, rest)
  let ip := signed.2.takeWhile (fun c => c ≠ '.')
  let rest := signed.2.drop ip.length
  match rest with
  | [] =>
    if ip ≠ [] ∧ ip.all Char.isDigit then some (signed.1 * decimalVal ip [])
    else none
  | _ :: fp =>
    if (ip ≠ [] ∨ fp ≠ []) ∧ ip.all Char.isDigit ∧ fp.all Char.isDigit then
      some (signed.1 * decimalVal ip fp)
    else none

/-! ### Data model (src/app.py lines 13-21) -/

/-- A record of the users table. -/
structure User where
  name : String
  role : String
deriving DecidableEq

/-- A record of the menu_items table.  The source stores the price as a
Python float; it is modelled as a rational. -/
structure MenuItem where
  name : String
  price : ℚ
  stall_owner : String
deriving DecidableEq

/-- A record of the sales list, as appended by log_purchase. -/
structure Sale where
  item_id : String
  item_name : String
  quantity : ℤ
  total : ℚ
  timestamp : ℤ
  stall_owner : String
  buyer_name : String
deriving DecidableEq

/-- A record of the purchases list, as appended by log_purchase.  Every
record the program ever appends carries the quantity and total_price
keys, so they are plain fields here; the dashboard expression
p.get(total_price, p[price]) therefore always reads total_price. -/
structure Purchase where
  user_id : String
  item_id : String
  item_name : String
  stall_name : String
  price : ℚ
  quantity : ℤ
  total_price : ℚ
  timestamp : ℤ
deriving DecidableEq

/-- A Python dict with string keys, as an insertion-ordered association
list (dict iteration order is insertion order). -/
abbrev Dict (α : Type) := List (String × α)

/-- Model of d.get(k) / d[k]: the value at the first (unique) matching
key. -/
def dget {α : Type} (d : Dict α) (k : String) : Option α :=
  (d.find? (fun p => p.1 == k)).map (fun p => p.2)

/-- Model of d[k] = v: replace in place if the key is present, otherwise
append. -/
def dset {α : Type} (d : Dict α) (k : String) (v : α) : Dict α :=
  if d.any (fun p => p.1 == k) then
    d.map (fun p => if p.1 == k then (k, v) else p)
  else d ++ [(k, v)]

/-- The keys of a dict, in iteration order. -/
def keys {α : Type} (d : Dict α) : List String :=
  d.map (fun p => p.1)

/-- The whole mutable state of the application: the four tables and the
two auto-incrementing id counters (src/app.py lines 13-21). -/
structure AppState where
  users : Dict User
  menu_items : Dict MenuItem
  sales : List Sale
  purchases : List Purchase
  next_user_id : ℕ
  next_item_id : ℕ
deriving DecidableEq

/-- The state at process start: empty tables, both counters at 1. -/
def initState : AppState :=
  { users := [], menu_items := [], sales := [], purchases := [],
    next_user_id := 1, next_item_id := 1 }

/-! ### Responses

A handler produces a rendered template or a redirect (identified by its
url_for endpoint name), a list of flashed (message, category) pairs, the
updated shared state and the updated session. -/

inductive Response where
  | redirect (endpoint : String)
  | render (template : String)
deriving DecidableEq

structure Result where
  response : Response
  flashes : List (String × String)
  state : AppState
  sess : Option String
deriving DecidableEq

/-- The dashboard endpoint a role is redirected to after login. -/
def roleDashboard (role : String) : String :=
  if role = "student" then "student_dashboard" else "stall_dashboard"

/-! ### Handlers -/

/-- GET / (src/app.py lines 23-32). -/
def index (st : AppState) (sess : Option String) : Result :=
  match sess with
  | none => ⟨.render "index.html", [], st, sess⟩
  | some uid =>
    match dget st.users uid with
    | none => ⟨.render "index.html", [], st, sess⟩
    | some user =>
      if user.role = "student" then ⟨.redirect "student_dashboard", [], st, sess⟩
      else ⟨.redirect "stall_dashboard", [], st, sess⟩

/-- GET /login (src/app.py line 68). -/
def login_get (st : AppState) (sess : Option String) : Result :=
  ⟨.render "login.html", [], st, sess⟩

/-- The user-creation branch of the login handler (src/app.py lines
52-57): assign the next id, append the record, advance the counter,
store the id in the session. -/
def loginCreate (st : AppState) (name role : String) : Result :=
  let uid := Nat.repr st.next_user_id
  ⟨.redirect (roleDashboard role),
    [("Welcome to Zen School Food Tracker, " ++ name ++ "!", "success")],
    { st with users := dset st.users uid ⟨name, role⟩,
              next_user_id := st.next_user_id + 1 },
    some uid⟩

/-- POST /login (src/app.py lines 36-66).  The existing-user scan takes
the first user whose lowered name and role match; Python treats a falsy
(empty) found id like no match, hence the explicit empty-string check. -/
def login_post (st : AppState) (sess : Option String)
    (nameF roleF : Option String) : Result :=
  let name := pyStrip (nameF.getD "")
  if name = "" ∨ (roleF ≠ some "student" ∧ roleF ≠ some "stall_owner") then
    ⟨.render "login.html",
      [("Please enter a valid name and select a role", "error")], st, sess⟩
  else
    let role := roleF.getD ""
    match st.users.find?
        (fun p => pyLower p.2.name == pyLower name && p.2.role == role) with
    | some (uid, _) =>
      if uid = "" then loginCreate st name role
      else
        ⟨.redirect (roleDashboard role),
          [("Welcome back, " ++ name ++ "!", "success")], st, some uid⟩
    | none => loginCreate st name role

/-- GET /logout (src/app.py lines 70-74). -/
def logout (st : AppState) (_sess : Option String) : Result :=
  ⟨.redirect "index", [("You have been logged out", "info")], st, none⟩

/-- GET /student/dashboard (src/app.py lines 76-106): role gate only;
the view data is computed by studentDashData below. -/
def student_dashboard (st : AppState) (sess : Option String) : Result :=
  match sess with
  | none => ⟨.redirect "login", [], st, sess⟩
  | some uid =>
    match dget st.users uid with
    | none => ⟨.redirect "login", [], st, sess⟩
    | some user =>
      if user.role ≠ "student" then ⟨.redirect "login", [], st, sess⟩
      else ⟨.render "student_dashboard.html", [], st, sess⟩

/-- GET /stall/dashboard (src/app.py lines 108-134): role gate only;
the view data is computed by stallDashData below. -/
def stall_dashboard (st : AppState) (sess : Option String) : Result :=
  match sess with
  | none => ⟨.redirect "login", [], st, sess⟩
  | some uid =>
    match dget st.users uid with
    | none => ⟨.redirect "login", [], st, sess⟩
    | some user =>
      if user.role ≠ "stall_owner" then ⟨.redirect "login", [], st, sess⟩
      else ⟨.render "stall_dashboard.html", [], st, sess⟩

/-- GET /browse-menu (src/app.py lines 136-154): student gate, then a
pure grouping of menu items rendered into the template. -/
def browse_menu (st : AppState) (sess : Option String) : Result :=
  match sess with
  | none => ⟨.redirect "login", [], st, sess⟩
  | some uid =>
    match dget st.users uid with
    | none => ⟨.redirect "login", [], st, sess⟩
    | some user =>
      if user.role ≠ "student" then ⟨.redirect "login", [], st, sess⟩
      else ⟨.render "browse_menu.html", [], st, sess⟩

/-- GET /add-menu-item (src/app.py lines 156-163, 192). -/
def add_menu_item_get (st : AppState) (sess : Option String) : Result :=
  match sess with
  | none => ⟨.redirect "login", [], st, sess⟩
  | some uid =>
    match dget st.users uid with
    | none => ⟨.redirect "login", [], st, sess⟩
    | some user =>
      if user.role ≠ "stall_owner" then ⟨.redirect "login", [], st, sess⟩
      else ⟨.render "add_menu_item.html", [], st, sess⟩

/-- POST /add-menu-item (src/app.py lines 156-190): stall-owner gate,
name and price validation, then append of the new item under the next
id. -/
def add_menu_item_post (st : AppState) (sess : Option String)
    (nameF priceF : Option String) : Result :=
  match sess with
  | none => ⟨.redirect "login", [], st, sess⟩
  | some uid =>
    match dget st.users uid with
    | none => ⟨.redirect "login", [], st, sess⟩
    | some user =>
      if user.role ≠ "stall_owner" then ⟨.redirect "login", [], st, sess⟩
      else
        let name := pyStrip (nameF.getD "")
        let price_str := pyStrip (priceF.getD "")
        if name = "" ∨ price_str = "" then
          ⟨.render "add_menu_item.html",
            [("Please fill in all fields", "error")], st, sess⟩
        else
          match pyParseFloat price_str with
          | none =>
            ⟨.render "add_menu_item.html",
              [("Please enter a valid price", "error")], st, sess⟩
          | some price =>
            if price ≤ 0 then
              ⟨.render "add_menu_item.html",
                [("Please enter a valid price", "error")], st, sess⟩
            else
              ⟨.redirect "stall_dashboard",
                [("Added " ++ name ++ " to your menu!", "success")],
                { st with
                  menu_items := dset st.menu_items (Nat.repr st.next_item_id)
                    ⟨name, price, user.name⟩,
                  next_item_id := st.next_item_id + 1 },
                sess⟩

/-- GET /record-sale (src/app.py lines 194-198): disabled, always an
informational redirect. -/
def record_sale (st : AppState) (sess : Option String) : Result :=
  ⟨.redirect "stall_dashboard",
    [("Sales are now recorded automatically when students make purchases!",
      "info")], st, sess⟩

/-- POST /log-purchase (src/app.py lines 200-255).  Student gate, item
and quantity validation, then the paired Purchase and Sale appends with
independent timestamps t1 and t2.  The success flash elides the
two-decimal currency formatting of the source message. -/
def log_purchase (st : AppState) (sess : Option String)
    (item_idF quantityF : Option String) (t1 t2 : ℤ) : Result :=
  match sess with
  | none => ⟨.redirect "login", [], st, sess⟩
  | some uid =>
    match dget st.users uid with
    | none => ⟨.redirect "login", [], st, sess⟩
    | some user =>
      if user.role ≠ "student" then ⟨.redirect "login", [], st, sess⟩
      else
        let quantity_str := pyStrip (quantityF.getD "1")
        match item_idF with
        | none =>
          ⟨.redirect "browse_menu", [("Invalid item selected", "error")],
            st, sess⟩
        | some iid =>
          if iid = "" then
            ⟨.redirect "browse_menu", [("Invalid item selected", "error")],
              st, sess⟩
          else
            match dget st.menu_items iid with
            | none =>
              ⟨.redirect "browse_menu", [("Invalid item selected", "error")],
                st, sess⟩
            | some item =>
              match pyParseInt quantity_str with
              | none =>
                ⟨.redirect "browse_menu",
                  [("Please enter a valid quantity (1-99)", "error")],
                  st, sess⟩
              | some quantity =>
                if quantity ≤ 0 ∨ 99 < quantity then
                  ⟨.redirect "browse_menu",
                    [("Please enter a valid quantity (1-99)", "error")],
                    st, sess⟩
                else
                  let total_price := item.price * (quantity : ℚ)
                  ⟨.redirect "browse_menu",
                    [(if quantity = 1 then
                        "Purchased " ++ item.name ++ "!"
                      else
                        "Purchased " ++ Int.repr quantity ++ "x " ++
                          item.name ++ "!", "success")],
                    { st with
                      purchases := st.purchases ++
                        [⟨uid, iid, item.name, item.stall_owner, item.price,
                          quantity, total_price, t1⟩],
                      sales := st.sales ++
                        [⟨iid, item.name, quantity, total_price, t2,
                          item.stall_owner, user.name⟩] },
                    sess⟩

/-! ### Dashboard view data (pure reads) -/

/-- Timestamp units per calendar day. -/
def secondsPerDay : ℤ := 86400

/-- The calendar date of a timestamp (datetime.date on the local
timeline). -/
def dateOf (t : ℤ) : ℤ := Int.fdiv t secondsPerDay

structure StudentDash where
  today_spend : ℚ
  weekly_spend : ℚ
  today_items : ℕ
  recent_purchases : List Purchase
deriving DecidableEq

/-- The data computed by the student dashboard (src/app.py lines 85-106)
for the session user uid at current time now: purchases are filtered to
the user, then to the current calendar date (today_spend, today_items)
and to the trailing seven days (weekly_spend); the recent list is the
first ten after a stable sort by timestamp descending. -/
def studentDashData (st : AppState) (uid : String) (now : ℤ) : StudentDash :=
  let user_purchases := st.purchases.filter (fun p => p.user_id == uid)
  let today := dateOf now
  let today_purchases := user_purchases.filter
    (fun p => dateOf p.timestamp == today)
  let today_spend := (today_purchases.map (fun p => p.total_price)).sum
  let week_ago := now - 7 * secondsPerDay
  let week_purchases := user_purchases.filter
    (fun p => decide (week_ago ≤ p.timestamp))
  let weekly_spend := (week_purchases.map (fun p => p.total_price)).sum
  let recent_purchases :=
    (user_purchases.mergeSort
      (fun a b => decide (b.timestamp ≤ a.timestamp))).take 10
  ⟨today_spend, weekly_spend, today_purchases.length, recent_purchases⟩

structure StallDash where
  total_sales : ℤ
  total_revenue : ℚ
  recent_sales : List Sale
  stall_menu : Dict MenuItem
deriving DecidableEq

/-- The data computed by the stall dashboard (src/app.py lines 117-134)
for a session user named ownerName: sales filtered to that stall name,
their quantity and revenue totals, the first ten after a stable sort by
timestamp descending, and the owned menu subset. -/
def stallDashData (st : AppState) (ownerName : String) : StallDash :=
  let stall_sales := st.sales.filter (fun s => s.stall_owner == ownerName)
  let total_sales := (stall_sales.map (fun s => s.quantity)).sum
  let total_revenue := (stall_sales.map (fun s => s.total)).sum
  let recent_sales :=
    (stall_sales.mergeSort
      (fun a b => decide (b.timestamp ≤ a.timestamp))).take 10
  let stall_menu := st.menu_items.filter
    (fun kv => kv.2.stall_owner == ownerName)
  ⟨total_sales, total_revenue, recent_sales, stall_menu⟩

/-! ### Requests and reachability -/

/-- One HTTP request, with its form fields and, for the handlers that
read the clock, the captured timestamps. -/
inductive Request where
  | indexReq
  | loginGet
  | loginPost (name role : Option String)
  | logoutReq
  | studentDashReq
  | stallDashReq
  | browseMenuReq
  | addItemGet
  | addItemPost (name price : Option String)
  | recordSaleReq
  | logPurchaseReq (item_id quantity : Option String) (t1 t2 : ℤ)

/-- Dispatch one request against the shared state and a session. -/
def step (st : AppState) (sess : Option String) : Request → Result
  | .indexReq => index st sess
  | .loginGet => login_get st sess
  | .loginPost n r => login_post st sess n r
  | .logoutReq => logout st sess
  | .studentDashReq => student_dashboard st sess
  | .stallDashReq => stall_dashboard st sess
  | .browseMenuReq => browse_menu st sess
  | .addItemGet => add_menu_item_get st sess
  | .addItemPost n p => add_menu_item_post st sess n p
  | .recordSaleReq => record_sale st sess
  | .logPurchaseReq i q t1 t2 => log_purchase st sess i q t1 t2

/-- States (with a session) reachable from process start by any request
sequence. -/
inductive Reachable : AppState → Option String → Prop
  | init : Reachable initState none
  | next {st : AppState} {sess : Option String} (r : Request) :
      Reachable st sess → Reachable (step st sess r).state (step st sess r).sess

/-! ### Dictionary lemmas -/

theorem mem_keys_iff_any {α : Type} (d : Dict α) (k : String) :
    d.any (fun p => p.1 == k) = true ↔ k ∈ keys d := by
  simp [List.any_eq_true, keys, List.mem_map]

theorem dset_eq_append {α : Type} {d : Dict α} {k : String} (v : α)
    (h : k ∉ keys d) : dset d k v = d ++ [(k, v)] := by
  have : d.any (fun p => p.1 == k) = false := by
    rw [← Bool.not_eq_true, mem_keys_iff_any]
    exact h
  simp [dset, this]

/-! ### Well-formed id tables

All keys of a table are decimal renderings of positive numbers below the
corresponding counter, without duplicates.  This is the invariant behind
the id-uniqueness claims. -/

def wfTable {α : Type} (d : Dict α) (next : ℕ) : Prop :=
  (keys d).Nodup ∧ ∀ k ∈ keys d, ∃ m, 0 < m ∧ m < next ∧ k = Nat.repr m

theorem wfTable_fresh {α : Type} {d : Dict α} {next : ℕ}
    (h : wfTable d next) : Nat.repr next ∉ keys d := by
  intro hmem
  obtain ⟨m, _, hlt, he⟩ := h.2 _ hmem
  exact absurd (natRepr_injective he) (by omega)

theorem wfTable_nil (next : ℕ) : wfTable ([] : Dict α) next := by
  simp [wfTable, keys]

theorem wfTable_append {α : Type} {d : Dict α} {next : ℕ} (v : α)
    (h : wfTable d next) (hpos : 0 < next) :
    wfTable (d ++ [(Nat.repr next, v)]) (next + 1) := by
  have hk : keys (d ++ [(Nat.repr next, v)]) = keys d ++ [Nat.repr next] := by
    simp [keys]
  constructor
  · rw [hk]
    refine List.Nodup.append h.1 (List.nodup_singleton _) ?_
    intro x hx hxs
    simp only [List.mem_singleton] at hxs
    subst hxs
    exact wfTable_fresh h hx
  · rw [hk]
    intro k hkmem
    rcases List.mem_append.mp hkmem with hmem | hmem
    · obtain ⟨m, h1, h2, h3⟩ := h.2 _ hmem
      exact ⟨m, h1, by omega, h3⟩
    · simp only [List.mem_singleton] at hmem
      exact ⟨next, hpos, by omega, hmem⟩

/-- The whole-state invariant: both id tables well formed against their
counters, both counters positive. -/
def WF (st : AppState) : Prop :=
  wfTable st.users st.next_user_id ∧ wfTable st.menu_items st.next_item_id ∧
    0 < st.next_user_id ∧ 0 < st.next_item_id

theorem WF_init : WF initState :=
  ⟨wfTable_nil 1, wfTable_nil 1, Nat.one_pos, Nat.one_pos⟩

/-! ### Role gate -/

/-- The user record the session points at, if any. -/
def sessionUser (st : AppState) (sess : Option String) : Option User :=
  match sess with
  | none => none
  | some uid => dget st.users uid

/-- The gate every role-protected handler applies: a session exists,
resolves to a user, and that user has the required role. -/
def gateOk (st : AppState) (sess : Option String) (role : String) : Bool :=
  match sessionUser st sess with
  | none => false
  | some u => u.role == role

theorem gate_cases {st : AppState} {sess : Option String} {role : String}
    (h : gateOk st sess role = false) :
    sess = none ∨
      (∃ uid, sess = some uid ∧ dget st.users uid = none) ∨
      (∃ uid u, sess = some uid ∧ dget st.users uid = some u ∧
        u.role ≠ role) := by
  cases sess with
  | none => exact Or.inl rfl
  | some uid =>
    cases hd : dget st.users uid with
    | none => exact Or.inr (Or.inl ⟨uid, rfl, hd⟩)
    | some u =>
      refine Or.inr (Or.inr ⟨uid, u, rfl, hd, ?_⟩)
      simp only [gateOk, sessionUser, hd] at h
      simpa using h

/-! ### State effects of the handlers -/

theorem index_state (st : AppState) (sess : Option String) :
    (index st sess).state = st := by
  unfold index
  repeat' split
  all_goals rfl

theorem student_dashboard_state (st : AppState) (sess : Option String) :
    (student_dashboard st sess).state = st := by
  unfold student_dashboard
  repeat' split
  all_goals rfl

theorem stall_dashboard_state (st : AppState) (sess : Option String) :
    (stall_dashboard st sess).state = st := by
  unfold stall_dashboard
  repeat' split
  all_goals rfl

theorem browse_menu_state (st : AppState) (sess : Option String) :
    (browse_menu st sess).state = st := by
  unfold browse_menu
  repeat' split
  all_goals rfl

theorem add_menu_item_get_state (st : AppState) (sess : Option String) :
    (add_menu_item_get st sess).state = st := by
  unfold add_menu_item_get
  repeat' split
  all_goals rfl

/-- POST /login either leaves the state alone or appends one user under
the current counter and advances it. -/
theorem login_post_cases (st : AppState) (sess : Option String)
    (nf rf : Option String) :
    (login_post st sess nf rf).state = st ∨
      ∃ u : User,
        (login_post st sess nf rf).state =
          { st with
            users := dset st.users (Nat.repr st.next_user_id) u,
            next_user_id := st.next_user_id + 1 } := by
  unfold login_post loginCreate
  repeat'
    first
    | split
    | dsimp only
  all_goals first
    | exact Or.inl rfl
    | exact Or.inr ⟨_, rfl⟩

/-- POST /add-menu-item either leaves the state alone or appends one
menu item under the current counter and advances it. -/
theorem add_menu_item_post_cases (st : AppState) (sess : Option String)
    (nf pf : Option String) :
    (add_menu_item_post st sess nf pf).state = st ∨
      ∃ it : MenuItem,
        (add_menu_item_post st sess nf pf).state =
          { st with
            menu_items := dset st.menu_items (Nat.repr st.next_item_id) it,
            next_item_id := st.next_item_id + 1 } := by
  unfold add_menu_item_post
  repeat'
    first
    | split
    | dsimp only
  all_goals first
    | exact Or.inl rfl
    | exact Or.inr ⟨_, rfl⟩

/-- POST /log-purchase never touches the users table, the menu table or
the id counters. -/
theorem log_purchase_tables (st : AppState) (sess : Option String)
    (i q : Option String) (t1 t2 : ℤ) :
    (log_purchase st sess i q t1 t2).state.users = st.users ∧
    (log_purchase st sess i q t1 t2).state.menu_items = st.menu_items ∧
    (log_purchase st sess i q t1 t2).state.next_user_id = st.next_user_id ∧
    (log_purchase st sess i q t1 t2).state.next_item_id = st.next_item_id := by
  unfold log_purchase
  repeat'
    first
    | split
    | dsimp only
  all_goals exact ⟨rfl, rfl, rfl, rfl⟩

/-- How one table may evolve across a single request: unchanged, or one
appended record whose decimal id is strictly greater, as a number, than
every id already in the table. -/
def tableGrowth {α : Type} (d d2 : Dict α) : Prop :=
  d2 = d ∨ ∃ n v, d2 = d ++ [(Nat.repr n, v)] ∧
    ∀ k ∈ keys d, ∃ m, m < n ∧ k = Nat.repr m

theorem WF_congr {st st2 : AppState} (h : WF st)
    (hu : st2.users = st.users) (hm : st2.menu_items = st.menu_items)
    (hnu : st2.next_user_id = st.next_user_id)
    (hni : st2.next_item_id = st.next_item_id) : WF st2 := by
  unfold WF at h ⊢
  rw [hu, hm, hnu, hni]
  exact h

/-- One step preserves the invariant, and each table grows only by a
fresh strictly-larger id. -/
theorem step_preserves (st : AppState) (sess : Option String) (r : Request)
    (h : WF st) :
    WF (step st sess r).state ∧
      tableGrowth st.users (step st sess r).state.users ∧
      tableGrowth st.menu_items (step st sess r).state.menu_items := by
  obtain ⟨hu, hm, hpu, hpi⟩ := h
  have growth_of_eq : ∀ st2 : AppState, st2 = st →
      WF st2 ∧ tableGrowth st.users st2.users ∧
        tableGrowth st.menu_items st2.menu_items := by
    rintro st2 rfl
    exact ⟨⟨hu, hm, hpu, hpi⟩, Or.inl rfl, Or.inl rfl⟩
  cases r with
  | indexReq => exact growth_of_eq _ (index_state st sess)
  | loginGet => exact growth_of_eq _ rfl
  | logoutReq => exact growth_of_eq _ rfl
  | studentDashReq => exact growth_of_eq _ (student_dashboard_state st sess)
  | stallDashReq => exact growth_of_eq _ (stall_dashboard_state st sess)
  | browseMenuReq => exact growth_of_eq _ (browse_menu_state st sess)
  | addItemGet => exact growth_of_eq _ (add_menu_item_get_state st sess)
  | recordSaleReq => exact growth_of_eq _ rfl
  | loginPost nf rf =>
    simp only [step]
    rcases login_post_cases st sess nf rf with he | ⟨u, he⟩
    · exact growth_of_eq _ he
    · rw [he]
      rw [dset_eq_append u (wfTable_fresh hu)] at he ⊢
      refine ⟨⟨wfTable_append u hu hpu, hm, Nat.succ_pos _, hpi⟩, ?_, Or.inl rfl⟩
      refine Or.inr ⟨st.next_user_id, u, rfl, ?_⟩
      intro k hk
      obtain ⟨m, _, hlt, he2⟩ := hu.2 _ hk
      exact ⟨m, hlt, he2⟩
  | addItemPost nf pf =>
    simp only [step]
    rcases add_menu_item_post_cases st sess nf pf with he | ⟨it, he⟩
    · exact growth_of_eq _ he
    · rw [he]
      rw [dset_eq_append it (wfTable_fresh hm)] at he ⊢
      refine ⟨⟨hu, wfTable_append it hm hpi, hpu, Nat.succ_pos _⟩, Or.inl rfl, ?_⟩
      refine Or.inr ⟨st.next_item_id, it, rfl, ?_⟩
      intro k hk
      obtain ⟨m, _, hlt, he2⟩ := hm.2 _ hk
      exact ⟨m, hlt, he2⟩
  | logPurchaseReq i q t1 t2 =>
    simp only [step]
    obtain ⟨h1, h2, h3, h4⟩ := log_purchase_tables st sess i q t1 t2
    refine ⟨WF_congr ⟨hu, hm, hpu, hpi⟩ h1 h2 h3 h4, ?_, ?_⟩
    · rw [h1]; exact Or.inl rfl
    · rw [h2]; exact Or.inl rfl

/-- Every reachable state satisfies the id-table invariant. -/
theorem reachable_WF (st : AppState) (sess : Option String)
    (h : Reachable st sess) : WF st := by
  induction h with
  | init => exact WF_init
  | next r _ ih => exact (step_preserves _ _ r ih).1

/-! ### The sorted-prefix lemma behind the recent-activity lists -/

/-- Taking n elements of a stable descending sort by an integer key
yields at most n elements, pairwise descending, and they dominate (by
key) some complement whose append is a permutation of the input. -/
theorem sortTake_spec {α : Type} (key : α → ℤ) (l : List α) (n : ℕ) :
    ((l.mergeSort (fun a b => decide (key b ≤ key a))).take n).length ≤ n ∧
    ((l.mergeSort (fun a b => decide (key b ≤ key a))).take n).Pairwise
      (fun a b => key b ≤ key a) ∧
    ∃ rest,
      List.Perm
        ((l.mergeSort (fun a b => decide (key b ≤ key a))).take n ++ rest)
        l ∧
      ∀ a ∈ (l.mergeSort (fun a b => decide (key b ≤ key a))).take n,
        ∀ b ∈ rest, key b ≤ key a := by
  have hsorted :
      (l.mergeSort (fun a b => decide (key b ≤ key a))).Pairwise
        (fun a b => key b ≤ key a) := by
    have h := @List.sorted_mergeSort α (fun a b => decide (key b ≤ key a))
      (fun a b c hab hbc => by
        simp only [decide_eq_true_eq] at *
        omega)
      (fun a b => by
        simp only [Bool.or_eq_true, decide_eq_true_eq]
        exact le_total _ _)
      l
    exact h.imp (fun hab => of_decide_eq_true hab)
  refine ⟨?_, ?_, ?_⟩
  · simp [List.length_take]
  · exact List.Pairwise.sublist (List.take_sublist n _) hsorted
  · refine ⟨(l.mergeSort (fun a b => decide (key b ≤ key a))).drop n, ?_, ?_⟩
    · rw [List.take_append_drop]
      exact List.mergeSort_perm l _
    · have hsplit := hsorted
      rw [← List.take_append_drop n
        (l.mergeSort (fun a b => decide (key b ≤ key a)))] at hsplit
      exact (List.pairwise_append.mp hsplit).2.2

/-! ### Claims -/

/-- Claim C4: for every student and purchases table, today_spend is the
sum of total_price over that student's purchases dated today, and
weekly_spend is the sum over that student's purchases in the trailing
seven days (boundary inclusive). -/
theorem C4_dashboard_spend (st : AppState) (uid : String) (now : ℤ) :
    (studentDashData st uid now).today_spend =
      ((st.purchases.filter (fun p =>
          p.user_id == uid && (dateOf p.timestamp == dateOf now))).map
        (fun p => p.total_price)).sum ∧
    (studentDashData st uid now).weekly_spend =
      ((st.purchases.filter (fun p =>
          p.user_id == uid &&
            decide (now - 7 * secondsPerDay ≤ p.timestamp))).map
        (fun p => p.total_price)).sum := by
  constructor
  · show ((((st.purchases.filter (fun p => p.user_id == uid)).filter
        (fun p => dateOf p.timestamp == dateOf now)).map
          (fun p => p.total_price)).sum) = _
    rw [List.filter_filter]
    rw [List.filter_congr (fun a _ => Bool.and_comm _ _)]
  · show ((((st.purchases.filter (fun p => p.user_id == uid)).filter
        (fun p => decide (now - 7 * secondsPerDay ≤ p.timestamp))).map
          (fun p => p.total_price)).sum) = _
    rw [List.filter_filter]
    rw [List.filter_congr (fun a _ => Bool.and_comm _ _)]

/-- Claim C9: the student dashboard, stall dashboard and browse-menu GET
handlers leave the whole application state — all four tables and both id
counters — unchanged: pure reads recomputed per request. -/
theorem C9_get_handlers_pure (st : AppState) (sess : Option String) :
    (student_dashboard st sess).state = st ∧
    (stall_dashboard st sess).state = st ∧
    (browse_menu st sess).state = st :=
  ⟨student_dashboard_state st sess, stall_dashboard_state st sess,
    browse_menu_state st sess⟩

/-- Claim C8: the recent-purchases and recent-sales lists hold at most
ten records, are ordered by timestamp descending, and are most recent:
the remaining records of the same owner all have timestamps no later
than any listed one. -/
theorem C8_recent_lists (st : AppState) (uid ownerName : String) (now : ℤ) :
    ((studentDashData st uid now).recent_purchases.length ≤ 10 ∧
      (studentDashData st uid now).recent_purchases.Pairwise
        (fun a b => b.timestamp ≤ a.timestamp) ∧
      ∃ rest,
        List.Perm ((studentDashData st uid now).recent_purchases ++ rest)
          (st.purchases.filter (fun p => p.user_id == uid)) ∧
        ∀ a ∈ (studentDashData st uid now).recent_purchases,
          ∀ b ∈ rest, b.timestamp ≤ a.timestamp) ∧
    ((stallDashData st ownerName).recent_sales.length ≤ 10 ∧
      (stallDashData st ownerName).recent_sales.Pairwise
        (fun a b => b.timestamp ≤ a.timestamp) ∧
      ∃ rest,
        List.Perm ((stallDashData st ownerName).recent_sales ++ rest)
          (st.sales.filter (fun s => s.stall_owner == ownerName)) ∧
        ∀ a ∈ (stallDashData st ownerName).recent_sales,
          ∀ b ∈ rest, b.timestamp ≤ a.timestamp) := by
  have h1 : (studentDashData st uid now).recent_purchases =
      ((st.purchases.filter (fun p => p.user_id == uid)).mergeSort
        (fun a b => decide (b.timestamp ≤ a.timestamp))).take 10 := rfl
  have h2 : (stallDashData st ownerName).recent_sales =
      ((st.sales.filter (fun s => s.stall_owner == ownerName)).mergeSort
        (fun a b => decide (b.timestamp ≤ a.timestamp))).take 10 := rfl
  rw [h1, h2]
  exact ⟨sortTake_spec (fun p : Purchase => p.timestamp)
      (st.purchases.filter (fun p => p.user_id == uid)) 10,
    sortTake_spec (fun s : Sale => s.timestamp)
      (st.sales.filter (fun s => s.stall_owner == ownerName)) 10⟩

/-- Claim C6: in every reachable state, user ids and menu-item ids are
unique; across any single further request each id table is either
unchanged or extended by appending one record under a fresh id whose
number strictly exceeds that of every id already in the table — ids are
monotonically assigned, never reused and never overwritten. -/
theorem C6_ids_unique_monotone (st : AppState) (sess : Option String)
    (h : Reachable st sess) :
    ((keys st.users).Nodup ∧ (keys st.menu_items).Nodup) ∧
      ∀ r : Request,
        tableGrowth st.users (step st sess r).state.users ∧
        tableGrowth st.menu_items (step st sess r).state.menu_items := by
  have hWF := reachable_WF st sess h
  refine ⟨⟨hWF.1.1, hWF.2.1.1⟩, fun r => ?_⟩
  obtain ⟨-, hg1, hg2⟩ := step_preserves st sess r hWF
  exact ⟨hg1, hg2⟩

theorem C6_witness :
    ((keys initState.users).Nodup ∧ (keys initState.menu_items).Nodup) ∧
      ∀ r : Request,
        tableGrowth initState.users (step initState none r).state.users ∧
        tableGrowth initState.menu_items
          (step initState none r).state.menu_items :=
  C6_ids_unique_monotone initState none Reachable.init

/-- A small concrete state used by the witnesses: one student, one stall
owner, one menu item owned by the stall. -/
def stC1 : AppState :=
  { users := [("1", ⟨"Alice", "student"⟩), ("3", ⟨"Bob", "stall_owner"⟩)],
    menu_items := [("2", ⟨"Tea", 10, "Bob"⟩)],
    sales := [], purchases := [], next_user_id := 4, next_item_id := 3 }

/-- Claim C5: a request to a role-gated route (student dashboard,
browse-menu and log-purchase for students; stall dashboard and
add-menu-item for stall owners) without a logged-in session, with a
dangling session, or with a session whose user does not have the role
that route requires, yields a bare redirect to the login page and
leaves the state and session untouched. -/
theorem C5_role_gate (st : AppState) (sess : Option String)
    (nf pf iidF qF : Option String) (t1 t2 : ℤ) :
    (gateOk st sess "student" = false →
      student_dashboard st sess = ⟨.redirect "login", [], st, sess⟩ ∧
      browse_menu st sess = ⟨.redirect "login", [], st, sess⟩ ∧
      log_purchase st sess iidF qF t1 t2 =
        ⟨.redirect "login", [], st, sess⟩) ∧
    (gateOk st sess "stall_owner" = false →
      stall_dashboard st sess = ⟨.redirect "login", [], st, sess⟩ ∧
      add_menu_item_get st sess = ⟨.redirect "login", [], st, sess⟩ ∧
      add_menu_item_post st sess nf pf =
        ⟨.redirect "login", [], st, sess⟩) := by
  constructor
  · intro hs
    rcases gate_cases hs with rfl | ⟨uid, rfl, hd⟩ | ⟨uid, u, rfl, hd, hr⟩
    · exact ⟨rfl, rfl, rfl⟩
    · refine ⟨?_, ?_, ?_⟩ <;>
        simp [student_dashboard, browse_menu, log_purchase, hd]
    · refine ⟨?_, ?_, ?_⟩ <;>
        simp [student_dashboard, browse_menu, log_purchase, hd, hr]
  · intro ho
    rcases gate_cases ho with rfl | ⟨uid, rfl, hd⟩ | ⟨uid, u, rfl, hd, hr⟩
    · exact ⟨rfl, rfl, rfl⟩
    · refine ⟨?_, ?_, ?_⟩ <;>
        simp [stall_dashboard, add_menu_item_get, add_menu_item_post, hd]
    · refine ⟨?_, ?_, ?_⟩ <;>
        simp [stall_dashboard, add_menu_item_get, add_menu_item_post, hd, hr]

theorem C5_witness :
    gateOk stC1 (some "3") "student" = false ∧
    gateOk stC1 (some "1") "stall_owner" = false ∧
    student_dashboard stC1 (some "3") =
      ⟨.redirect "login", [], stC1, some "3"⟩ ∧
    log_purchase stC1 (some "3") (some "2") (some "3") 0 0 =
      ⟨.redirect "login", [], stC1, some "3"⟩ ∧
    stall_dashboard stC1 (some "1") =
      ⟨.redirect "login", [], stC1, some "1"⟩ ∧
    add_menu_item_post stC1 (some "1") (some "Samosa") (some "5") =
      ⟨.redirect "login", [], stC1, some "1"⟩ :=
  ⟨rfl, rfl,
    ((C5_role_gate stC1 (some "3") (some "Samosa") (some "5") (some "2")
        (some "3") 0 0).1 rfl).1,
    ((C5_role_gate stC1 (some "3") (some "Samosa") (some "5") (some "2")
        (some "3") 0 0).1 rfl).2.2,
    ((C5_role_gate stC1 (some "1") (some "Samosa") (some "5") (some "2")
        (some "3") 0 0).2 rfl).1,
    ((C5_role_gate stC1 (some "1") (some "Samosa") (some "5") (some "2")
        (some "3") 0 0).2 rfl).2.2⟩

/-! ### The purchase write path -/

/-- The success branch of POST /log-purchase, as one equation: with a
valid student session, an existing item and an in-range quantity, the
handler returns a browse-menu redirect, a success flash, and the state
with exactly one Purchase and one Sale appended, both totalling price
times quantity. -/
theorem log_purchase_success_eq
    (st : AppState) (uid iid : String) (user : User) (item : MenuItem)
    (qF : Option String) (q t1 t2 : ℤ)
    (hu : dget st.users uid = some user) (hrole : user.role = "student")
    (hiid : iid ≠ "") (hitem : dget st.menu_items iid = some item)
    (hq : pyParseInt (pyStrip (qF.getD "1")) = some q)
    (h1 : 1 ≤ q) (h99 : q ≤ 99) :
    log_purchase st (some uid) (some iid) qF t1 t2 =
      ⟨.redirect "browse_menu",
        [(if q = 1 then "Purchased " ++ item.name ++ "!"
          else "Purchased " ++ Int.repr q ++ "x " ++ item.name ++ "!",
          "success")],
        { st with
          purchases := st.purchases ++
            [⟨uid, iid, item.name, item.stall_owner, item.price, q,
              item.price * (q : ℚ), t1⟩],
          sales := st.sales ++
            [⟨iid, item.name, q, item.price * (q : ℚ), t2,
              item.stall_owner, user.name⟩] },
        some uid⟩ := by
  simp only [log_purchase]
  rw [hu]
  dsimp only
  rw [if_neg (show ¬(user.role ≠ "student") from fun hcon => hcon hrole)]
  rw [if_neg hiid, hitem]
  dsimp only
  rw [hq]
  dsimp only
  rw [if_neg (show ¬(q ≤ 0 ∨ 99 < q) by omega)]

/-- Claim C1: a successful purchase of quantity q of an item priced p
appends exactly one Purchase and one Sale, each with quantity q and
total p times q, and the owning stall dashboard revenue and sales
totals grow by exactly p times q and q. -/
theorem C1_purchase_totals
    (st : AppState) (uid iid : String) (user : User) (item : MenuItem)
    (qF : Option String) (q t1 t2 : ℤ)
    (hu : dget st.users uid = some user) (hrole : user.role = "student")
    (hiid : iid ≠ "") (hitem : dget st.menu_items iid = some item)
    (hq : pyParseInt (pyStrip (qF.getD "1")) = some q)
    (h1 : 1 ≤ q) (h99 : q ≤ 99) :
    ∃ P : Purchase, ∃ S : Sale,
      (log_purchase st (some uid) (some iid) qF t1 t2).state.purchases =
        st.purchases ++ [P] ∧
      P.quantity = q ∧ P.total_price = item.price * (q : ℚ) ∧
      (log_purchase st (some uid) (some iid) qF t1 t2).state.sales =
        st.sales ++ [S] ∧
      S.quantity = q ∧ S.total = item.price * (q : ℚ) ∧
      (stallDashData (log_purchase st (some uid) (some iid) qF t1 t2).state
          item.stall_owner).total_revenue =
        (stallDashData st item.stall_owner).total_revenue +
          item.price * (q : ℚ) ∧
      (stallDashData (log_purchase st (some uid) (some iid) qF t1 t2).state
          item.stall_owner).total_sales =
        (stallDashData st item.stall_owner).total_sales + q := by
  rw [log_purchase_success_eq st uid iid user item qF q t1 t2
    hu hrole hiid hitem hq h1 h99]
  refine ⟨_, _, rfl, rfl, rfl, rfl, rfl, rfl, ?_, ?_⟩
  · simp [stallDashData, List.filter_append]
  · simp [stallDashData, List.filter_append]

theorem C1_witness :
    dget stC1.users "1" = some ⟨"Alice", "student"⟩ ∧
    dget stC1.menu_items "2" = some ⟨"Tea", 10, "Bob"⟩ ∧
    pyParseInt (pyStrip ((some "3" : Option String).getD "1")) = some 3 ∧
    ∃ P : Purchase, ∃ S : Sale,
      (log_purchase stC1 (some "1") (some "2") (some "3") 0 0).state.purchases
          = stC1.purchases ++ [P] ∧
      P.quantity = 3 ∧ P.total_price = (10 : ℚ) * ((3 : ℤ) : ℚ) ∧
      (log_purchase stC1 (some "1") (some "2") (some "3") 0 0).state.sales =
        stC1.sales ++ [S] ∧
      S.quantity = 3 ∧ S.total = (10 : ℚ) * ((3 : ℤ) : ℚ) ∧
      (stallDashData
          (log_purchase stC1 (some "1") (some "2") (some "3") 0 0).state
          "Bob").total_revenue =
        (stallDashData stC1 "Bob").total_revenue + (10 : ℚ) * ((3 : ℤ) : ℚ) ∧
      (stallDashData
          (log_purchase stC1 (some "1") (some "2") (some "3") 0 0).state
          "Bob").total_sales =
        (stallDashData stC1 "Bob").total_sales + 3 :=
  ⟨rfl, rfl, by decide,
    C1_purchase_totals stC1 "1" "2" ⟨"Alice", "student"⟩ ⟨"Tea", 10, "Bob"⟩
      (some "3") 3 0 0 rfl rfl (by decide) rfl (by decide)
      (by omega) (by omega)⟩

/-- Claim C10: with a valid student session and an existing item, a
request whose quantity field is absent defaults to quantity 1 and
succeeds, recording a Purchase and a Sale of quantity 1 at the unit
price. -/
theorem C10_default_quantity
    (st : AppState) (uid iid : String) (user : User) (item : MenuItem)
    (t1 t2 : ℤ)
    (hu : dget st.users uid = some user) (hrole : user.role = "student")
    (hiid : iid ≠ "") (hitem : dget st.menu_items iid = some item) :
    ∃ P : Purchase, ∃ S : Sale,
      (log_purchase st (some uid) (some iid) none t1 t2).state.purchases =
        st.purchases ++ [P] ∧
      P.quantity = 1 ∧ P.price = item.price ∧ P.total_price = item.price ∧
      (log_purchase st (some uid) (some iid) none t1 t2).state.sales =
        st.sales ++ [S] ∧
      S.quantity = 1 ∧ S.total = item.price ∧
      (log_purchase st (some uid) (some iid) none t1 t2).response =
        .redirect "browse_menu" := by
  have hq : pyParseInt (pyStrip ((none : Option String).getD "1")) =
      some 1 := by decide
  rw [log_purchase_success_eq st uid iid user item none 1 t1 t2
    hu hrole hiid hitem hq (by omega) (by omega)]
  refine ⟨_, _, rfl, rfl, rfl, ?_, rfl, rfl, ?_, rfl⟩
  · simp
  · simp

theorem C10_witness :
    dget stC1.users "1" = some ⟨"Alice", "student"⟩ ∧
    dget stC1.menu_items "2" = some ⟨"Tea", 10, "Bob"⟩ ∧
    ∃ P : Purchase, ∃ S : Sale,
      (log_purchase stC1 (some "1") (some "2") none 0 0).state.purchases =
        stC1.purchases ++ [P] ∧
      P.quantity = 1 ∧ P.price = (10 : ℚ) ∧ P.total_price = (10 : ℚ) ∧
      (log_purchase stC1 (some "1") (some "2") none 0 0).state.sales =
        stC1.sales ++ [S] ∧
      S.quantity = 1 ∧ S.total = (10 : ℚ) ∧
      (log_purchase stC1 (some "1") (some "2") none 0 0).response =
        .redirect "browse_menu" :=
  ⟨rfl, rfl,
    C10_default_quantity stC1 "1" "2" ⟨"Alice", "student"⟩ ⟨"Tea", 10, "Bob"⟩
      0 0 rfl rfl (by decide) rfl⟩

/-- Claim C2: with a valid student session, a log-purchase request whose
item id is missing from the menu or whose quantity fails to parse into
[1, 99] leaves the whole state unchanged and redirects to browse-menu
with one error flash. -/
theorem C2_invalid_purchase_rejected
    (st : AppState) (uid : String) (user : User)
    (item_idF quantityF : Option String) (t1 t2 : ℤ)
    (hu : dget st.users uid = some user) (hrole : user.role = "student")
    (hbad :
      (∀ iid, item_idF = some iid →
        iid = "" ∨ dget st.menu_items iid = none) ∨
      (∀ q, pyParseInt (pyStrip (quantityF.getD "1")) = some q →
        q ≤ 0 ∨ 99 < q)) :
    (log_purchase st (some uid) item_idF quantityF t1 t2).state = st ∧
    (log_purchase st (some uid) item_idF quantityF t1 t2).response =
      .redirect "browse_menu" ∧
    ∃ m, (log_purchase st (some uid) item_idF quantityF t1 t2).flashes =
      [(m, "error")] := by
  simp only [log_purchase]
  rw [hu]
  dsimp only
  rw [if_neg (show ¬(user.role ≠ "student") from fun hcon => hcon hrole)]
  cases item_idF with
  | none => exact ⟨rfl, rfl, _, rfl⟩
  | some iid =>
    dsimp only
    by_cases hiid : iid = ""
    · rw [if_pos hiid]
      exact ⟨rfl, rfl, _, rfl⟩
    · rw [if_neg hiid]
      cases hitem : dget st.menu_items iid with
      | none => exact ⟨rfl, rfl, _, rfl⟩
      | some item =>
        have hqbad : ∀ q, pyParseInt (pyStrip (quantityF.getD "1")) = some q →
            q ≤ 0 ∨ 99 < q := by
          rcases hbad with hL | hR
          · rcases hL iid rfl with h | h
            · exact absurd h hiid
            · rw [hitem] at h
              exact absurd h (by simp)
          · exact hR
        cases hq : pyParseInt (pyStrip (quantityF.getD "1")) with
        | none => exact ⟨rfl, rfl, _, rfl⟩
        | some q =>
          dsimp only
          rw [if_pos (hqbad q hq)]
          exact ⟨rfl, rfl, _, rfl⟩

theorem C2_witness :
    dget stC1.users "1" = some ⟨"Alice", "student"⟩ ∧
    (∀ iid, (some "9" : Option String) = some iid →
      iid = "" ∨ dget stC1.menu_items iid = none) ∧
    (log_purchase stC1 (some "1") (some "9") (some "2") 0 0).state = stC1 ∧
    (log_purchase stC1 (some "1") (some "9") (some "2") 0 0).response =
      .redirect "browse_menu" ∧
    ∃ m, (log_purchase stC1 (some "1") (some "9") (some "2") 0 0).flashes =
      [(m, "error")] := by
  have hbad : ∀ iid, (some "9" : Option String) = some iid →
      iid = "" ∨ dget stC1.menu_items iid = none := by
    intro iid h
    cases h
    exact Or.inr rfl
  exact ⟨rfl, hbad,
    C2_invalid_purchase_rejected stC1 "1" ⟨"Alice", "student"⟩
      (some "9") (some "2") 0 0 rfl rfl (Or.inl hbad)⟩

/-! ### Login behaviour -/

/-- The validation guard of POST /login passes for a non-empty stripped
name and a known role. -/
theorem login_cond_false (nf : Option String) (r : String)
    (hname : pyStrip (nf.getD "") ≠ "")
    (hr : r = "student" ∨ r = "stall_owner") :
    ¬(pyStrip (nf.getD "") = "" ∨
      ((some r : Option String) ≠ some "student" ∧
        (some r : Option String) ≠ some "stall_owner")) := by
  intro hcon
  rcases hcon with h | ⟨h1, h2⟩
  · exact hname h
  · rcases hr with e | e
    · exact h1 (by rw [e])
    · exact h2 (by rw [e])

/-- POST /login when the user scan finds a record with a non-empty id:
welcome back, session set to that id, state untouched. -/
theorem login_found (st : AppState) (sess : Option String)
    (nf : Option String) (r uid : String) (u : User)
    (hname : pyStrip (nf.getD "") ≠ "")
    (hr : r = "student" ∨ r = "stall_owner")
    (hfind : st.users.find?
        (fun p => pyLower p.2.name == pyLower (pyStrip (nf.getD "")) &&
          p.2.role == r) = some (uid, u))
    (hne : uid ≠ "") :
    login_post st sess nf (some r) =
      ⟨.redirect (roleDashboard r),
        [("Welcome back, " ++ pyStrip (nf.getD "") ++ "!", "success")],
        st, some uid⟩ := by
  simp only [login_post, Option.getD_some]
  rw [if_neg (login_cond_false nf r hname hr)]
  try dsimp only
  rw [hfind]
  try dsimp only
  rw [if_neg hne]

/-- POST /login when the user scan finds nothing: a fresh user record is
created. -/
theorem login_creates (st : AppState) (sess : Option String)
    (nf : Option String) (r : String)
    (hname : pyStrip (nf.getD "") ≠ "")
    (hr : r = "student" ∨ r = "stall_owner")
    (hfind : st.users.find?
        (fun p => pyLower p.2.name == pyLower (pyStrip (nf.getD "")) &&
          p.2.role == r) = none) :
    login_post st sess nf (some r) =
      loginCreate st (pyStrip (nf.getD "")) r := by
  simp only [login_post, Option.getD_some]
  rw [if_neg (login_cond_false nf r hname hr)]
  try dsimp only
  rw [hfind]

/-- Claim C3: logging in twice with the same (case-insensitively
matching) name and role returns the same user id and creates no second
record; logging in with the same, previously unused, name under a
different role creates and returns a distinct user id. -/
theorem C3_login_identity
    (st : AppState) (sess : Option String) (nf nf2 : Option String)
    (r r2 : String)
    (hWF : wfTable st.users st.next_user_id) (hpos : 0 < st.next_user_id)
    (hname : pyStrip (nf.getD "") ≠ "")
    (hname2 : pyStrip (nf2.getD "") ≠ "")
    (hlow : pyLower (pyStrip (nf2.getD "")) = pyLower (pyStrip (nf.getD "")))
    (hr : r = "student" ∨ r = "stall_owner") :
    (∃ uid1,
      (login_post st sess nf (some r)).sess = some uid1 ∧
      (login_post (login_post st sess nf (some r)).state
          (login_post st sess nf (some r)).sess nf2 (some r)).sess =
        some uid1 ∧
      (login_post (login_post st sess nf (some r)).state
          (login_post st sess nf (some r)).sess nf2 (some r)).state =
        (login_post st sess nf (some r)).state) ∧
    ((∀ pu ∈ st.users, pyLower pu.2.name ≠ pyLower (pyStrip (nf.getD ""))) →
      (r2 = "student" ∨ r2 = "stall_owner") → r2 ≠ r →
      ∃ uid1 uid2, ∃ u2 : User,
        (login_post st sess nf (some r)).sess = some uid1 ∧
        (login_post (login_post st sess nf (some r)).state
            (login_post st sess nf (some r)).sess nf2 (some r2)).sess =
          some uid2 ∧
        uid2 ≠ uid1 ∧
        (login_post (login_post st sess nf (some r)).state
            (login_post st sess nf (some r)).sess nf2 (some r2)).state.users =
          (login_post st sess nf (some r)).state.users ++ [(uid2, u2)]) := by
  constructor
  · cases hf : st.users.find?
        (fun p => pyLower p.2.name == pyLower (pyStrip (nf.getD "")) &&
          p.2.role == r) with
    | some p =>
      obtain ⟨uid1, u⟩ := p
      have hmem : uid1 ∈ keys st.users := by
        have := List.mem_of_find?_eq_some hf
        exact List.mem_map.mpr ⟨(uid1, u), this, rfl⟩
      obtain ⟨m, _, _, he⟩ := hWF.2 _ hmem
      have hne : uid1 ≠ "" := by rw [he]; exact natRepr_ne_empty m
      rw [login_found st sess nf r uid1 u hname hr hf hne]
      have hfind2 : st.users.find?
          (fun p => pyLower p.2.name == pyLower (pyStrip (nf2.getD "")) &&
            p.2.role == r) = some (uid1, u) := by
        rw [hlow]
        exact hf
      rw [login_found st (some uid1) nf2 r uid1 u hname2 hr hfind2 hne]
      exact ⟨uid1, rfl, rfl, rfl⟩
    | none =>
      rw [login_creates st sess nf r hname hr hf]
      simp only [loginCreate]
      have happend := dset_eq_append
        (⟨pyStrip (nf.getD ""), r⟩ : User) (wfTable_fresh hWF)
      have hne : Nat.repr st.next_user_id ≠ "" := natRepr_ne_empty _
      have hfind2 :
          (dset st.users (Nat.repr st.next_user_id)
              ⟨pyStrip (nf.getD ""), r⟩).find?
            (fun p => pyLower p.2.name == pyLower (pyStrip (nf2.getD "")) &&
              p.2.role == r) =
            some (Nat.repr st.next_user_id, ⟨pyStrip (nf.getD ""), r⟩) := by
        rw [happend, List.find?_append]
        have h1 : st.users.find?
            (fun p => pyLower p.2.name == pyLower (pyStrip (nf2.getD "")) &&
              p.2.role == r) = none := by
          rw [hlow]
          exact hf
        rw [h1]
        simp [List.find?, hlow]
      rw [login_found _ _ nf2 r _ _ hname2 hr hfind2 hne]
      exact ⟨Nat.repr st.next_user_id, rfl, rfl, rfl⟩
  · intro hfresh hr2 hner
    have hf1 : st.users.find?
        (fun p => pyLower p.2.name == pyLower (pyStrip (nf.getD "")) &&
          p.2.role == r) = none := by
      apply List.find?_eq_none.mpr
      intro p hp
      simp only [Bool.and_eq_true, beq_iff_eq, not_and]
      intro h1 _
      exact hfresh p hp h1
    rw [login_creates st sess nf r hname hr hf1]
    simp only [loginCreate]
    have happend := dset_eq_append
      (⟨pyStrip (nf.getD ""), r⟩ : User) (wfTable_fresh hWF)
    have hWF1 : wfTable
        (dset st.users (Nat.repr st.next_user_id) ⟨pyStrip (nf.getD ""), r⟩)
        (st.next_user_id + 1) := by
      rw [happend]
      exact wfTable_append _ hWF hpos
    have hf2 :
        (dset st.users (Nat.repr st.next_user_id)
            ⟨pyStrip (nf.getD ""), r⟩).find?
          (fun p => pyLower p.2.name == pyLower (pyStrip (nf2.getD "")) &&
            p.2.role == r2) = none := by
      rw [happend, List.find?_append]
      have h1 : st.users.find?
          (fun p => pyLower p.2.name == pyLower (pyStrip (nf2.getD "")) &&
            p.2.role == r2) = none := by
        apply List.find?_eq_none.mpr
        intro p hp
        simp only [Bool.and_eq_true, beq_iff_eq, not_and]
        intro h1 _
        rw [hlow] at h1
        exact hfresh p hp h1
      rw [h1]
      have hrr : (r == r2) = false :=
        beq_eq_false_iff_ne.mpr (fun e => hner e.symm)
      simp [List.find?, hrr]
    rw [login_creates _ _ nf2 r2 hname2 hr2 hf2]
    simp only [loginCreate]
    refine ⟨Nat.repr st.next_user_id, Nat.repr (st.next_user_id + 1),
      ⟨pyStrip (nf2.getD ""), r2⟩, rfl, rfl, ?_, ?_⟩
    · intro he
      have := natRepr_injective he
      omega
    · dsimp only
      rw [dset_eq_append _ (wfTable_fresh hWF1)]

theorem C3_witness :
    wfTable initState.users initState.next_user_id ∧
    pyStrip ((some "Alice" : Option String).getD "") ≠ "" ∧
    (∃ uid1,
      (login_post initState none (some "Alice") (some "student")).sess =
        some uid1 ∧
      (login_post
          (login_post initState none (some "Alice") (some "student")).state
          (login_post initState none (some "Alice") (some "student")).sess
          (some "Alice") (some "student")).sess = some uid1 ∧
      (login_post
          (login_post initState none (some "Alice") (some "student")).state
          (login_post initState none (some "Alice") (some "student")).sess
          (some "Alice") (some "student")).state =
        (login_post initState none (some "Alice") (some "student")).state) :=
  ⟨wfTable_nil 1, by decide,
    (C3_login_identity initState none (some "Alice") (some "Alice")
      "student" "stall_owner" (wfTable_nil 1) Nat.one_pos (by decide)
      (by decide) rfl (Or.inl rfl)).1⟩

/-! ### Menu-item creation -/

/-- Claim C7: with a valid stall-owner session, POST /add-menu-item with
an empty stripped name or a price that does not parse to a positive
number leaves the state unchanged and re-renders the form with an error
flash; with a non-empty name and a positive parsed price it appends
exactly one MenuItem owned by that stall owner under the next id and
redirects to the stall dashboard. -/
theorem C7_add_item_validation
    (st : AppState) (uid : String) (user : User)
    (nameF priceF : Option String)
    (hu : dget st.users uid = some user)
    (hrole : user.role = "stall_owner")
    (hkeys : ∀ k ∈ keys st.menu_items,
      ∃ m, m < st.next_item_id ∧ k = Nat.repr m) :
    ((pyStrip (nameF.getD "") = "" ∨
        (∀ p, pyParseFloat (pyStrip (priceF.getD "")) = some p → p ≤ 0)) →
      (add_menu_item_post st (some uid) nameF priceF).state = st ∧
      (add_menu_item_post st (some uid) nameF priceF).response =
        .render "add_menu_item.html" ∧
      ∃ m, (add_menu_item_post st (some uid) nameF priceF).flashes =
        [(m, "error")]) ∧
    (∀ p, pyStrip (nameF.getD "") ≠ "" →
      pyParseFloat (pyStrip (priceF.getD "")) = some p → 0 < p →
      (add_menu_item_post st (some uid) nameF priceF).state =
        { st with
          menu_items := st.menu_items ++
            [(Nat.repr st.next_item_id,
              ⟨pyStrip (nameF.getD ""), p, user.name⟩)],
          next_item_id := st.next_item_id + 1 } ∧
      (add_menu_item_post st (some uid) nameF priceF).response =
        .redirect "stall_dashboard") := by
  have hfresh : Nat.repr st.next_item_id ∉ keys st.menu_items := by
    intro hmem
    obtain ⟨m, hlt, he⟩ := hkeys _ hmem
    exact absurd (natRepr_injective he) (by omega)
  simp only [add_menu_item_post]
  rw [hu]
  try dsimp only
  rw [if_neg (show ¬(user.role ≠ "stall_owner") from fun h => h hrole)]
  constructor
  · intro hbad
    by_cases hn : pyStrip (nameF.getD "") = ""
    · rw [if_pos (Or.inl hn)]
      exact ⟨rfl, rfl, _, rfl⟩
    · by_cases hp : pyStrip (priceF.getD "") = ""
      · rw [if_pos (Or.inr hp)]
        exact ⟨rfl, rfl, _, rfl⟩
      · rw [if_neg (show ¬(pyStrip (nameF.getD "") = "" ∨
            pyStrip (priceF.getD "") = "") from fun hor => hor.elim hn hp)]
        cases hparse : pyParseFloat (pyStrip (priceF.getD "")) with
        | none => exact ⟨rfl, rfl, _, rfl⟩
        | some p =>
          have hple : p ≤ 0 := (hbad.resolve_left hn) p hparse
          try dsimp only
          rw [if_pos hple]
          exact ⟨rfl, rfl, _, rfl⟩
  · intro p hn hparse hpos
    have hp : pyStrip (priceF.getD "") ≠ "" := by
      intro e
      rw [e, show pyParseFloat "" = none from rfl] at hparse
      exact Option.noConfusion hparse
    rw [if_neg (show ¬(pyStrip (nameF.getD "") = "" ∨
        pyStrip (priceF.getD "") = "") from fun hor => hor.elim hn hp)]
    rw [hparse]
    try dsimp only
    rw [if_neg (not_le.mpr hpos)]
    rw [dset_eq_append _ hfresh]
    exact ⟨rfl, rfl⟩

theorem C7_witness :
    dget stC1.users "3" = some ⟨"Bob", "stall_owner"⟩ ∧
    ((pyStrip ((some "Samosa" : Option String).getD "") = "" ∨
        (∀ p, pyParseFloat
            (pyStrip ((some "abc" : Option String).getD "")) = some p →
          p ≤ 0)) →
      (add_menu_item_post stC1 (some "3")
          (some "Samosa") (some "abc")).state = stC1 ∧
      (add_menu_item_post stC1 (some "3")
          (some "Samosa") (some "abc")).response =
        .render "add_menu_item.html" ∧
      ∃ m, (add_menu_item_post stC1 (some "3")
          (some "Samosa") (some "abc")).flashes = [(m, "error")]) :=
  ⟨rfl,
    (C7_add_item_validation stC1 "3" ⟨"Bob", "stall_owner"⟩
      (some "Samosa") (some "abc") rfl rfl
      (by
        intro k hk
        simp only [stC1, keys, List.map_cons, List.map_nil,
          List.mem_singleton] at hk
        subst hk
        exact ⟨2, by decide, rfl⟩)).1⟩

end ZenFood
